import Mathlib

/-!
Verification development for the `minha-hq` repository: a comic-generation
web app with an Express + SQLite REST layer (`src/server.ts`), a Gemini
service wrapper (`src/unnamed/part_001`) and a client-side orchestration
workflow (`src/unnamed/part_000`).

The TypeScript source is shallowly embedded: JSON values become an inductive
type, `JSON.parse` becomes an executable recursive-descent parser, the SQLite
tables become lists of rows, HTTP route handlers become pure functions on the
store state, and the external Gemini calls are modelled by oracles for the
response together with an explicit log of issued requests.
-/

set_option linter.unnecessarySeqFocus false

namespace MinhaHQ

/-! ## JSON values

Model of an ECMAScript JSON value as produced by `JSON.parse`.  Numbers keep
their source lexeme (the claims never inspect numeric values, and this avoids
floating point).  Objects keep their key/value pairs in textual order. -/

inductive Json where
  | null : Json
  | bool (b : Bool) : Json
  | num (lexeme : String) : Json
  | str (s : String) : Json
  | arr (elems : List Json) : Json
  | obj (fields : List (String × Json)) : Json

/-! ## A model of `JSON.parse`

Recursive-descent parser for the JSON grammar (RFC 8259 / ECMA-404, the
grammar accepted by `JSON.parse`): whitespace is space, tab, LF, CR; values
are objects, arrays, strings (with the standard escapes), numbers, `true`,
`false`, `null`; the whole input must be consumed.  Structural recursion is
fuelled; the fuel supplied by `parseJson` is generous for the input length.
(Duplicate object keys are kept in order rather than last-wins; no claim
depends on that corner.) -/

def isJsonWs (c : Char) : Bool :=
  c = ' ' || c = '\t' || c = '\n' || c = '\r'

def skipWs (cs : List Char) : List Char :=
  cs.dropWhile isJsonWs

def isJsonDigit (c : Char) : Bool :=
  '0' ≤ c && c ≤ '9'

def hexVal (c : Char) : Option Nat :=
  let n := c.toNat
  if 48 ≤ n && n ≤ 57 then some (n - 48)
  else if 97 ≤ n && n ≤ 102 then some (n - 87)
  else if 65 ≤ n && n ≤ 70 then some (n - 55)
  else none

/-- Parses the body of a JSON string literal (after the opening quote),
accumulating decoded characters in reverse.  The fuel is decremented once
per consumed character, so any fuel above the input length is enough. -/
def parseStringBody : Nat → List Char → List Char → Option (String × List Char)
  | 0, _, _ => none
  | Nat.succ _, acc, '\"' :: rest => some (⟨acc.reverse⟩, rest)
  | Nat.succ fuel, acc, '\\' :: esc =>
    (match esc with
     | '\"' :: rest => parseStringBody fuel ('\"' :: acc) rest
     | '\\' :: rest => parseStringBody fuel ('\\' :: acc) rest
     | '/' :: rest => parseStringBody fuel ('/' :: acc) rest
     | 'b' :: rest => parseStringBody fuel ('\x08' :: acc) rest
     | 'f' :: rest => parseStringBody fuel ('\x0c' :: acc) rest
     | 'n' :: rest => parseStringBody fuel ('\n' :: acc) rest
     | 'r' :: rest => parseStringBody fuel ('\r' :: acc) rest
     | 't' :: rest => parseStringBody fuel ('\t' :: acc) rest
     | 'u' :: h1 :: h2 :: h3 :: h4 :: rest =>
       (match hexVal h1, hexVal h2, hexVal h3, hexVal h4 with
        | some a, some b, some c, some d =>
          parseStringBody fuel (Char.ofNat (((a * 16 + b) * 16 + c) * 16 + d) :: acc) rest
        | _, _, _, _ => none)
     | _ => none)
  | Nat.succ fuel, acc, c :: rest =>
    if c.toNat < 32 then none else parseStringBody fuel (c :: acc) rest
  | _, _, [] => none

/-- Integer part of a JSON number: `0`, or a nonzero digit followed by
digits (leading zeros are rejected, as by `JSON.parse`). -/
def parseIntPart : List Char → Option (List Char × List Char)
  | '0' :: rest => some (['0'], rest)
  | c :: rest =>
    if isJsonDigit c then
      let (ds, rest') := List.span isJsonDigit rest
      some (c :: ds, rest')
    else none
  | [] => none

/-- Optional fraction part `.digits` of a JSON number. -/
def parseFracPart : List Char → Option (List Char × List Char)
  | '.' :: rest =>
    (match List.span isJsonDigit rest with
     | ([], _) => none
     | (ds, rest') => some ('.' :: ds, rest'))
  | cs => some ([], cs)

/-- Optional exponent part of a JSON number. -/
def parseExpPart : List Char → Option (List Char × List Char)
  | c :: rest =>
    if c = 'e' || c = 'E' then
      let (sgn, r1) : List Char × List Char :=
        match rest with
        | '+' :: r => (['+'], r)
        | '-' :: r => (['-'], r)
        | _ => ([], rest)
      match List.span isJsonDigit r1 with
      | ([], _) => none
      | (ds, r2) => some (c :: (sgn ++ ds), r2)
    else some ([], c :: rest)
  | [] => some ([], [])

/-- A JSON number literal; the lexeme is kept verbatim. -/
def parseNumber (cs : List Char) : Option (String × List Char) :=
  let (sgn, cs1) : List Char × List Char :=
    match cs with
    | '-' :: r => (['-'], r)
    | _ => ([], cs)
  match parseIntPart cs1 with
  | none => none
  | some (ip, cs2) =>
    match parseFracPart cs2 with
    | none => none
    | some (fp, cs3) =>
      match parseExpPart cs3 with
      | none => none
      | some (ep, cs4) => some (⟨sgn ++ ip ++ fp ++ ep⟩, cs4)

mutual

/-- Parses one JSON value at the head of the input (whitespace already
skipped), returning it with the unconsumed remainder. -/
def parseValue : Nat → List Char → Option (Json × List Char)
  | 0, _ => none
  | Nat.succ fuel, cs =>
    match cs with
    | [] => none
    | '\x7b' :: rest =>
      (match skipWs rest with
       | '\x7d' :: r2 => some (Json.obj [], r2)
       | r1 => parseMembers fuel r1 [])
    | '[' :: rest =>
      (match skipWs rest with
       | ']' :: r2 => some (Json.arr [], r2)
       | r1 => parseElems fuel r1 [])
    | '\"' :: rest =>
      (match parseStringBody (rest.length + 1) [] rest with
       | some (s, r1) => some (Json.str s, r1)
       | none => none)
    | 't' :: 'r' :: 'u' :: 'e' :: rest => some (Json.bool true, rest)
    | 'f' :: 'a' :: 'l' :: 's' :: 'e' :: rest => some (Json.bool false, rest)
    | 'n' :: 'u' :: 'l' :: 'l' :: rest => some (Json.null, rest)
    | _ =>
      (match parseNumber cs with
       | some (s, r1) => some (Json.num s, r1)
       | none => none)

/-- Parses the elements of a non-empty JSON array (positioned at the start
of a value), accumulating in reverse. -/
def parseElems : Nat → List Char → List Json → Option (Json × List Char)
  | 0, _, _ => none
  | Nat.succ fuel, cs, acc =>
    match parseValue fuel cs with
    | none => none
    | some (v, rest) =>
      match skipWs rest with
      | ',' :: r2 => parseElems fuel (skipWs r2) (v :: acc)
      | ']' :: r2 => some (Json.arr (v :: acc).reverse, r2)
      | _ => none

/-- Parses the members of a non-empty JSON object (positioned at the start
of a key string), accumulating in reverse. -/
def parseMembers : Nat → List Char → List (String × Json) → Option (Json × List Char)
  | 0, _, _ => none
  | Nat.succ fuel, cs, acc =>
    match cs with
    | '\"' :: rest =>
      (match parseStringBody (rest.length + 1) [] rest with
       | none => none
       | some (k, r1) =>
         match skipWs r1 with
         | ':' :: r2 =>
           (match parseValue fuel (skipWs r2) with
            | none => none
            | some (v, r3) =>
              match skipWs r3 with
              | ',' :: r4 => parseMembers fuel (skipWs r4) ((k, v) :: acc)
              | '\x7d' :: r4 => some (Json.obj ((k, v) :: acc).reverse, r4)
              | _ => none)
         | _ => none)
    | _ => none

end

/-- Model of `JSON.parse`: parse one value surrounded by whitespace,
requiring the whole input to be consumed; `none` models a thrown
`SyntaxError`. -/
def parseJson (s : String) : Option Json :=
  match parseValue (2 * s.data.length + 2) (skipWs s.data) with
  | some (v, rest) => if (skipWs rest).isEmpty then some v else none
  | none => none

/-! ## Markdown code-fence stripping

`generateComicStory` (src/unnamed/part_001, line 43) runs
`text.replace(/\x60\x60\x60json|\x60\x60\x60/g, "").trim()` before parsing.
The JavaScript global `replace` scans left to right; at each position the
alternation tries the token `\x60\x60\x60json` first, then `\x60\x60\x60`;
a match is deleted and scanning resumes after it.  `stripA` is that scan
(fuelled so that it reduces definitionally; one fuel per step suffices
since every step consumes at least one character). -/

def fenceJson : List Char := ['\x60', '\x60', '\x60', 'j', 's', 'o', 'n']

def fencePlain : List Char := ['\x60', '\x60', '\x60']

def stripA : Nat → List Char → List Char
  | 0, _ => []
  | Nat.succ _, [] => []
  | Nat.succ fuel, c :: rest =>
    if fenceJson <+: c :: rest then stripA fuel ((c :: rest).drop 7)
    else if fencePlain <+: c :: rest then stripA fuel ((c :: rest).drop 3)
    else c :: stripA fuel rest

/-- The fence-removal pass of line 43 of the service module. -/
def stripFencesList (cs : List Char) : List Char := stripA cs.length cs

/-- Model of JavaScript `String.prototype.trim` restricted to the common
whitespace characters (space, tab, LF, CR): drop whitespace from both
ends. -/
def trimList (cs : List Char) : List Char :=
  ((cs.dropWhile isJsonWs).reverse.dropWhile isJsonWs).reverse

/-- The `text.replace(...).trim()` pipeline of line 43. -/
def cleanResponseText (s : String) : String := ⟨trimList (stripFencesList s.data)⟩

/-! ## The story-generation wrapper

`generateComicStory` (src/unnamed/part_001, lines 9-49) issues one
text-generation request and then parses the response text:

    const text = response.text || "\x7b\x7d";
    const cleanJson = text.replace(/\x60\x60\x60json|\x60\x60\x60/g, "").trim();
    return JSON.parse(cleanJson);

with the `catch` branch returning
`\x7b title: "História Sem Título", panels: [] \x7d`.  The external call is
modelled by an oracle for the response text (`none` for an undefined
`response.text`). -/

/-- Models `response.text || "\x7b\x7d"`: both `undefined` and the empty
string are falsy. -/
def responseTextOrDefault : Option String → String
  | none => "\x7b\x7d"
  | some s => if s = "" then "\x7b\x7d" else s

/-- The degenerate story object returned when parsing fails
(src/unnamed/part_001, line 47). -/
def untitledStory : Json :=
  Json.obj [("title", Json.str "História Sem Título"), ("panels", Json.arr [])]

/-- The parse-and-recover block of `generateComicStory`
(src/unnamed/part_001, lines 40-48), as a function of the raw response
text.  The function is total: the `catch` branch makes parse failures
return `untitledStory` instead of propagating. -/
def storyResponseToJson (respText : Option String) : Json :=
  match parseJson (cleanResponseText (responseTextOrDefault respText)) with
  | some j => j
  | none => untitledStory

/-! ## The AI client and its requests

`getAI` (src/unnamed/part_001, lines 3-7) reads `process.env.GEMINI_API_KEY`
and throws `Error("GEMINI_API_KEY is not set")` when the key is falsy
(absent or empty).  The environment is a map from variable names to
optional values; thrown errors are `Except.error`.  Each wrapper function
returns the list of external requests it issued together with its result,
and takes an oracle for the external response. -/

def getAI (env : String → Option String) : Except String String :=
  match env "GEMINI_API_KEY" with
  | none => Except.error "GEMINI_API_KEY is not set"
  | some k => if k = "" then Except.error "GEMINI_API_KEY is not set" else Except.ok k

/-- One entry of the `parts` array of an image-generation request: a text
part or an inline-data part carrying `(data, mimeType)`. -/
structure ReqPart where
  text : Option String
  inlineData : Option (String × String)
deriving DecidableEq

/-- The `contents` of a Gemini request: a bare string (text generation) or
a parts array (image generation). -/
inductive ReqContents where
  | text (s : String) : ReqContents
  | parts (ps : List ReqPart) : ReqContents
deriving DecidableEq

/-- An external request to the Gemini API: target model and contents. -/
structure ExtRequest where
  model : String
  contents : ReqContents
deriving DecidableEq

/-- The story-generation prompt template (src/unnamed/part_001,
lines 13-16). -/
def storyPrompt (prompt language : String) : String :=
  "Crie uma história curta para uma história em quadrinhos baseada no seguinte tema: \""
    ++ prompt ++ "\". \n    Retorne a história dividida em 4 a 6 painéis. \n"
    ++ "    Para cada painel, forneça uma descrição visual detalhada (para geração de imagem)"
    ++ " e um texto de legenda ou balão de fala.\n    O idioma da resposta deve ser "
    ++ language ++ "."

/-- `generateComicStory` (src/unnamed/part_001, lines 9-49): construct the
client, issue one text-generation request, parse the response text. -/
def generateComicStory (env : String → Option String) (prompt language : String)
    (respText : Option String) : List ExtRequest × Except String Json :=
  match getAI env with
  | Except.error e => ([], Except.error e)
  | Except.ok _ =>
    ([⟨"gemini-3-flash-preview", ReqContents.text (storyPrompt prompt language)⟩],
     Except.ok (storyResponseToJson respText))

/-! ## The image-generation wrapper

`generatePanelImage` (src/unnamed/part_001, lines 51-85). -/

/-- The instruction text built from the panel description
(src/unnamed/part_001, line 55). -/
def basePrompt (description : String) : String :=
  "Gere uma imagem de estilo história em quadrinhos (comic book style) baseada na"
    ++ " seguinte descrição: " ++ description ++ ". Use cores vibrantes e traços fortes."

/-- The likeness-transfer instruction appended when a reference image is
supplied (src/unnamed/part_001, line 65). -/
def likenessSuffix : String :=
  " Incorpore as características da pessoa/objeto na imagem enviada para que o"
    ++ " personagem se pareça com ela."

/-- Model of JavaScript `String.prototype.split(',')`: the list of
comma-separated fields, in order (an empty input gives one empty field). -/
def splitOnComma : List Char → List (List Char)
  | [] => [[]]
  | c :: rest =>
    if c = ',' then [] :: splitOnComma rest
    else
      match splitOnComma rest with
      | [] => [[c]]
      | g :: gs => (c :: g) :: gs

/-- Models `referenceImageBase64.split(',')[1] || referenceImageBase64`
(src/unnamed/part_001, line 61): the second comma-separated field if it
exists and is non-empty, otherwise the whole argument. -/
def refImageData (r : String) : String :=
  match (splitOnComma r.data)[1]? with
  | none => r
  | some seg => if seg = [] then r else ⟨seg⟩

/-- Claim C10's words for the data sent when the argument contains a
comma: "the substring after the first comma". -/
def afterFirstComma (r : String) : String :=
  ⟨(r.data.dropWhile (fun c => c != ',')).tail⟩

/-- The amended description of the sent reference data: the substring
between the first comma and the following comma or end of string, falling
back to the whole argument when there is no comma or that substring is
empty. -/
def refImageDataSpec (r : String) : String :=
  if r.data.contains ',' then
    let seg := ((r.data.dropWhile (fun c => c != ',')).tail).takeWhile (fun c => c != ',')
    if seg = [] then r else ⟨seg⟩
  else r

/-- The `parts` array of the image-generation request
(src/unnamed/part_001, lines 54-66): the instruction text, and — when a
reference image is supplied (JavaScript truthiness: a non-empty string) —
the extended instruction followed by the inline reference data. -/
def panelImageRequestParts (description : String) (ref : Option String) : List ReqPart :=
  match ref with
  | none => [⟨some (basePrompt description), none⟩]
  | some r =>
    if r = "" then [⟨some (basePrompt description), none⟩]
    else
      [⟨some (basePrompt description ++ likenessSuffix), none⟩,
       ⟨none, some (refImageData r, "image/png")⟩]

/-- A response content part; `inlineData = some d` models a part carrying
an inline binary payload with base64 data `d`. -/
structure RespPart where
  inlineData : Option String
deriving DecidableEq

/-- A response content: its parts array may be absent. -/
structure RespContent where
  parts : Option (List RespPart)
deriving DecidableEq

/-- A response candidate: its content may be absent. -/
structure RespCandidate where
  content : Option RespContent
deriving DecidableEq

/-- A generation response: its candidates array may be absent. -/
structure GenResponse where
  candidates : Option (List RespCandidate)
deriving DecidableEq

/-- Models `response.candidates?.[0]?.content?.parts || []`
(src/unnamed/part_001, line 78). -/
def responseParts (r : GenResponse) : List RespPart :=
  match r.candidates with
  | none => []
  | some cs =>
    match cs.head? with
    | none => []
    | some c0 =>
      match c0.content with
      | none => []
      | some ct => ct.parts.getD []

/-- The scan loop of src/unnamed/part_001, lines 78-84: return the first
inline payload re-wrapped as a data URI, else fall through to `null`. -/
def firstInlineImage : List RespPart → Option String
  | [] => none
  | p :: rest =>
    match p.inlineData with
    | some d => some ("data:image/png;base64," ++ d)
    | none => firstInlineImage rest

/-- The response-scanning phase of `generatePanelImage`. -/
def extractPanelImage (r : GenResponse) : Option String :=
  firstInlineImage (responseParts r)

/-- `generatePanelImage` (src/unnamed/part_001, lines 51-85): construct
the client, issue one image-generation request with the assembled parts,
scan the response. -/
def generatePanelImage (env : String → Option String) (description : String)
    (ref : Option String) (resp : GenResponse) :
    List ExtRequest × Except String (Option String) :=
  match getAI env with
  | Except.error e => ([], Except.error e)
  | Except.ok _ =>
    ([⟨"gemini-2.5-flash-image", ReqContents.parts (panelImageRequestParts description ref)⟩],
     Except.ok (extractPanelImage resp))

/-- `translateText` (src/unnamed/part_001, lines 87-94): construct the
client, issue one text-generation request, return the raw response text. -/
def translateText (env : String → Option String) (text targetLanguage : String)
    (respText : Option String) : List ExtRequest × Except String (Option String) :=
  match getAI env with
  | Except.error e => ([], Except.error e)
  | Except.ok _ =>
    ([⟨"gemini-3-flash-preview",
       ReqContents.text ("Traduza o seguinte texto para o idioma \"" ++ targetLanguage
         ++ "\":\n\n" ++ text)⟩],
     Except.ok respText)

/-! ## The store and the HTTP routes

`src/server.ts` keeps two SQLite tables.  `comics(id PRIMARY KEY, title NOT
NULL, description, created_at DEFAULT CURRENT_TIMESTAMP)` and
`panels(id PRIMARY KEY, comic_id NOT NULL, image_url, caption, order_index,
FOREIGN KEY(comic_id) REFERENCES comics(id))`.  Tables are rows in
insertion order; `INSERT` appends.  The foreign key is declarative only
(the code never issues `PRAGMA foreign_keys = ON`, so SQLite does not
enforce it), and nothing constrains `order_index`.  Server-generated uuids
and timestamps are parameters of the operations; primary-key freshness is
a side condition of the reachability relation below. -/

/-- A row of the `comics` table. -/
structure ComicRow where
  id : String
  title : String
  description : Option String
  created_at : Nat
deriving DecidableEq

/-- A row of the `panels` table; `image_url`, `caption` and `order_index`
are nullable and unconstrained. -/
structure PanelRow where
  id : String
  comic_id : String
  image_url : Option String
  caption : Option String
  order_index : Option Int
deriving DecidableEq

/-- The store state: both tables. -/
structure DB where
  comics : List ComicRow
  panels : List PanelRow
deriving DecidableEq

/-- The empty store created by the schema setup. -/
def emptyDB : DB := ⟨[], []⟩

/-- The insert behind `POST /api/comics` (src/server.ts, line 43). -/
def createComicDb (db : DB) (id title : String) (description : Option String)
    (ts : Nat) : DB :=
  { db with comics := db.comics ++ [⟨id, title, description, ts⟩] }

/-- The insert behind `POST /api/comics/:id/panels` (src/server.ts,
lines 64-65); no validation of `order_index` or of `comic_id` existence. -/
def addPanelDb (db : DB) (id comicId : String) (image_url caption : Option String)
    (order_index : Option Int) : DB :=
  { db with panels := db.panels ++ [⟨id, comicId, image_url, caption, order_index⟩] }

/-- The two deletes behind `DELETE /api/comics/:id` (src/server.ts,
lines 56-57): all panels of the comic, then the comic itself. -/
def deleteComicDb (db : DB) (id : String) : DB :=
  { comics := db.comics.filter (fun c => !(c.id == id)),
    panels := db.panels.filter (fun p => !(p.comic_id == id)) }

/-- `ORDER BY order_index ASC` comparison; SQLite sorts NULLs first. -/
def panelLe (p q : PanelRow) : Bool :=
  match p.order_index, q.order_index with
  | none, _ => true
  | some _, none => false
  | some a, some b => a ≤ b

/-- `ORDER BY order_index ASC` as a relation.  SQLite's sort is modelled
by a stable sort with respect to this relation. -/
def panelOrder (p q : PanelRow) : Prop := panelLe p q = true

instance : DecidableRel panelOrder := fun p q =>
  inferInstanceAs (Decidable (panelLe p q = true))

instance : IsTotal PanelRow panelOrder where
  total p q := by
    unfold panelOrder panelLe
    cases p.order_index <;> cases q.order_index <;> simp <;> omega

instance : IsTrans PanelRow panelOrder where
  trans p q r := by
    unfold panelOrder panelLe
    cases p.order_index <;> cases q.order_index <;> cases r.order_index <;> simp <;> omega

/-- `ORDER BY created_at DESC` as a relation. -/
def createdDesc (a b : ComicRow) : Prop := b.created_at ≤ a.created_at

instance : DecidableRel createdDesc := fun a b =>
  inferInstanceAs (Decidable (b.created_at ≤ a.created_at))

/-- `GET /api/comics` (src/server.ts, lines 35-38): all comics ordered by
`created_at` descending, no panels. -/
def listComicsRoute (db : DB) : List ComicRow :=
  db.comics.insertionSort createdDesc

/-- `GET /api/comics/:id` (src/server.ts, lines 47-53): the first comic
row matching the id together with its panels sorted ascending by
`order_index`, or a 404 error when none matches. -/
def getComicRoute (db : DB) (id : String) : Except String (ComicRow × List PanelRow) :=
  match db.comics.find? (fun c => c.id == id) with
  | none => Except.error "Comic not found"
  | some c =>
    Except.ok (c, (db.panels.filter (fun p => p.comic_id == id)).insertionSort panelOrder)

/-- `DELETE /api/comics/:id` (src/server.ts, lines 55-59): cascading
delete; the response is `{success: true}` unconditionally. -/
def deleteComicRoute (db : DB) (id : String) : DB × Bool :=
  (deleteComicDb db id, true)

/-- `POST /api/comics` (src/server.ts, lines 40-45) with the fresh uuid
and the store timestamp as parameters; responds with the created comic. -/
def postComicRoute (db : DB) (freshId : String) (title : String)
    (description : Option String) (ts : Nat) : DB × (String × String × Option String) :=
  (createComicDb db freshId title description ts, (freshId, title, description))

/-- `POST /api/comics/:id/panels` (src/server.ts, lines 61-67) with the
fresh uuid as a parameter; responds with the created panel. -/
def postPanelRoute (db : DB) (freshId comicId : String)
    (image_url caption : Option String) (order_index : Option Int) :
    DB × (String × Option String × Option String × Option Int) :=
  (addPanelDb db freshId comicId image_url caption order_index,
   (freshId, image_url, caption, order_index))

/-- Store states reachable through the API from the empty store.  The
freshness side conditions model the per-table `PRIMARY KEY` constraints on
the server-generated uuids; reads do not change the state. -/
inductive Reachable : DB → Prop where
  | init : Reachable emptyDB
  | postComic {db : DB} (id title : String) (description : Option String) (ts : Nat) :
      Reachable db → (∀ c ∈ db.comics, c.id ≠ id) →
      Reachable (createComicDb db id title description ts)
  | postPanel {db : DB} (id comicId : String) (image_url caption : Option String)
      (order_index : Option Int) :
      Reachable db → (∀ p ∈ db.panels, p.id ≠ id) →
      Reachable (addPanelDb db id comicId image_url caption order_index)
  | deleteComic {db : DB} (id : String) :
      Reachable db → Reachable (deleteComicDb db id)

/-- The spec's §3 invariant: for every comic id, the `order_index` values
of the panels referencing it are pairwise distinct. -/
def orderUnique (db : DB) : Prop :=
  ∀ cid : String,
    ((db.panels.filter (fun p => p.comic_id == cid)).map
      (fun p => p.order_index)).Pairwise (· ≠ ·)

/-- A reachable store with two panels of one comic sharing `order_index`
`0`: one `POST /api/comics` followed by two identical panel posts. -/
def dupOrderDb : DB :=
  addPanelDb
    (addPanelDb (createComicDb emptyDB "c1" "T" (some "D") 0)
      "p1" "c1" (some "img1") (some "cap1") (some 0))
    "p2" "c1" (some "img2") (some "cap2") (some 0)

/-- A small store with one comic and two panels inserted out of order,
used to instantiate the route theorems. -/
def sampleDb : DB :=
  ⟨[⟨"c1", "T", some "D", 0⟩],
   [⟨"p1", "c1", some "u1", some "k1", some 1⟩,
    ⟨"p0", "c1", some "u0", some "k0", some 0⟩]⟩

/-! ## The comic-creation workflow

`handleCreateComic` (src/unnamed/part_000, lines 64-116) runs on the
client: generate the story, abort (`throw`) when `story.panels` is falsy
or empty, `POST /api/comics`, then for each story position `i` generate an
image and — only when the image call returned a truthy url — `POST` the
panel with `order_index: i`.  The story JSON is destructured into a title
and an optional panel list (`none` models an absent or null `panels`
field); per-position image results are an oracle.  The result is the list
of issued API calls in order, together with the caught error message, if
any. -/

/-- One element of `story.panels`. -/
structure StoryPanel where
  visualDescription : String
  caption : String
deriving DecidableEq

/-- A request to the repository's own HTTP API. -/
inductive ApiCall where
  | postComic (title description : String) : ApiCall
  | postPanel (comicId url caption : String) (order_index : Nat) : ApiCall
deriving DecidableEq

/-- Default used to model the always-in-bounds `story.panels[i]` access. -/
def defaultStoryPanel : StoryPanel := ⟨"", ""⟩

/-- The workflow of src/unnamed/part_000, lines 64-116. -/
def handleCreateComic (prompt storyTitle : String)
    (storyPanels : Option (List StoryPanel)) (imageFor : Nat → Option String)
    (newComicId : String) : List ApiCall × Option String :=
  if prompt = "" then ([], none)
  else
    match storyPanels with
    | none => ([], some "Falha ao gerar história")
    | some ps =>
      if ps.length = 0 then ([], some "Falha ao gerar história")
      else
        (ApiCall.postComic storyTitle prompt ::
          (List.range ps.length).filterMap (fun i =>
            match imageFor i with
            | none => none
            | some url =>
              if url = "" then none
              else some (ApiCall.postPanel newComicId url
                (ps.getD i defaultStoryPanel).caption i)),
         none)

/-- The `order_index` of a panel write, if the call is one. -/
def panelCallOrderIndex : ApiCall → Option Nat
  | ApiCall.postPanel _ _ _ i => some i
  | _ => none

/-- The `order_index` values of the panel writes of a call list, in
order. -/
def panelOrderIndices (calls : List ApiCall) : List Nat :=
  calls.filterMap panelCallOrderIndex

/-- Replaying a list of API calls against the store, supplying a fresh
uuid per call (indexed from `k`) and a fixed timestamp. -/
def applyApiCalls (ids : Nat → String) (ts : Nat) : DB → Nat → List ApiCall → DB
  | db, _, [] => db
  | db, k, ApiCall.postComic title description :: rest =>
    applyApiCalls ids ts (createComicDb db (ids k) title (some description) ts) (k + 1) rest
  | db, k, ApiCall.postPanel comicId url caption i :: rest =>
    applyApiCalls ids ts (addPanelDb db (ids k) comicId (some url) (some caption)
      (some (i : Int))) (k + 1) rest

/-! ## Theorems -/

/-! ### Fence-stripping and trimming lemmas -/

theorem stripA_congr : ∀ {f g : Nat} (cs : List Char), cs.length ≤ f → cs.length ≤ g →
    stripA f cs = stripA g cs := by
  intro f
  induction f with
  | zero =>
    intro g cs hf _
    have : cs = [] := List.eq_nil_of_length_eq_zero (Nat.le_zero.mp hf)
    subst this
    cases g <;> simp [stripA]
  | succ f ih =>
    intro g cs hf hg
    match cs, g with
    | [], g => cases g <;> simp [stripA]
    | c :: rest, 0 => exact absurd hg (by simp)
    | c :: rest, Nat.succ g =>
      simp only [stripA]
      by_cases h7 : fenceJson <+: c :: rest
      · rw [if_pos h7, if_pos h7]
        exact ih _ (by simp at hf ⊢; omega) (by simp at hg ⊢; omega)
      · rw [if_neg h7, if_neg h7]
        by_cases h3 : fencePlain <+: c :: rest
        · rw [if_pos h3, if_pos h3]
          exact ih _ (by simp at hf ⊢; omega) (by simp at hg ⊢; omega)
        · rw [if_neg h3, if_neg h3]
          exact congrArg _ (ih _ (by simp at hf; omega) (by simp at hg; omega))

/-- Unfolding equation for `stripFencesList` at a cons cell. -/
theorem stripFencesList_cons (c : Char) (rest : List Char) :
    stripFencesList (c :: rest) =
      if fenceJson <+: c :: rest then stripFencesList ((c :: rest).drop 7)
      else if fencePlain <+: c :: rest then stripFencesList ((c :: rest).drop 3)
      else c :: stripFencesList rest := by
  show stripA (c :: rest).length (c :: rest) = _
  have : (c :: rest).length = rest.length + 1 := by simp
  rw [this]
  simp only [stripA]
  by_cases h7 : fenceJson <+: c :: rest
  · rw [if_pos h7, if_pos h7]
    exact stripA_congr _ (by simp) (le_refl _)
  · rw [if_neg h7, if_neg h7]
    by_cases h3 : fencePlain <+: c :: rest
    · rw [if_pos h3, if_pos h3]
      exact stripA_congr _ (by simp) (le_refl _)
    · rw [if_neg h3, if_neg h3]
      rfl

/-- A pattern that does not contain `c` and is a prefix of `l ++ c :: r`
already is a prefix of `l`: regex matches cannot span such a junction. -/
theorem prefix_of_append_cons {p l r : List Char} {c : Char} (hc : c ∉ p)
    (h : p <+: l ++ c :: r) : p <+: l := by
  rcases le_or_lt p.length l.length with hle | hlt
  · rw [List.prefix_iff_eq_take] at h ⊢
    rwa [List.take_append_of_le_length hle] at h
  · exfalso
    apply hc
    have h1 := h.getElem (n := l.length) hlt
    have h2 : (l ++ c :: r)[l.length] = c := by
      simp [List.getElem_append_right]
    rw [h2] at h1
    exact h1 ▸ List.getElem_mem hlt

theorem newline_not_mem_fenceJson : '\n' ∉ fenceJson := by decide

theorem newline_not_mem_fencePlain : '\n' ∉ fencePlain := by decide

/-- Fence tokens contain no newline, so stripping distributes over a
newline junction. -/
theorem stripFencesList_append_newline : ∀ (n : Nat) (xs : List Char), xs.length ≤ n →
    ∀ ys, stripFencesList (xs ++ '\n' :: ys) =
      stripFencesList xs ++ '\n' :: stripFencesList ys := by
  intro n
  induction n with
  | zero =>
    intro xs hlen ys
    have : xs = [] := List.eq_nil_of_length_eq_zero (Nat.le_zero.mp hlen)
    subst this
    rw [List.nil_append, stripFencesList_cons]
    rw [if_neg (by simp [fenceJson]), if_neg (by simp [fencePlain])]
    rfl
  | succ n ih =>
    intro xs hlen ys
    match xs with
    | [] =>
      rw [List.nil_append, stripFencesList_cons]
      rw [if_neg (by simp [fenceJson]), if_neg (by simp [fencePlain])]
      rfl
    | c :: rest =>
      by_cases h7 : fenceJson <+: c :: rest
      · have h7' : fenceJson <+: (c :: rest) ++ '\n' :: ys :=
          h7.trans (List.prefix_append _ _)
        have hl7 : 7 ≤ (c :: rest).length := h7.length_le
        rw [List.cons_append, stripFencesList_cons, ← List.cons_append, if_pos h7',
          stripFencesList_cons, if_pos h7, List.drop_append_of_le_length hl7]
        exact ih _ (by simp at hlen ⊢; omega) ys
      · have h7' : ¬ fenceJson <+: (c :: rest) ++ '\n' :: ys := fun hp =>
          h7 (prefix_of_append_cons newline_not_mem_fenceJson hp)
        by_cases h3 : fencePlain <+: c :: rest
        · have h3' : fencePlain <+: (c :: rest) ++ '\n' :: ys :=
            h3.trans (List.prefix_append _ _)
          have hl3 : 3 ≤ (c :: rest).length := h3.length_le
          rw [List.cons_append, stripFencesList_cons, ← List.cons_append, if_neg h7',
            if_pos h3', stripFencesList_cons, if_neg h7, if_pos h3,
            List.drop_append_of_le_length hl3]
          exact ih _ (by simp at hlen ⊢; omega) ys
        · have h3' : ¬ fencePlain <+: (c :: rest) ++ '\n' :: ys := fun hp =>
            h3 (prefix_of_append_cons newline_not_mem_fencePlain hp)
          rw [List.cons_append, stripFencesList_cons, ← List.cons_append, if_neg h7',
            if_neg h3', stripFencesList_cons, if_neg h7, if_neg h3, List.cons_append]
          rw [ih rest (by simp at hlen; omega) ys]

theorem trimList_cons_newline (cs : List Char) : trimList ('\n' :: cs) = trimList cs := by
  simp [trimList, List.dropWhile_cons, isJsonWs]

theorem trimList_append_newline (cs : List Char) : trimList (cs ++ ['\n']) = trimList cs := by
  unfold trimList
  rw [List.dropWhile_append]
  by_cases h : (cs.dropWhile isJsonWs).isEmpty
  · rw [if_pos h]
    have h0 : cs.dropWhile isJsonWs = [] := by simpa using h
    rw [h0]
    simp [List.dropWhile_cons, isJsonWs]
  · rw [if_neg h]
    rw [List.reverse_append]
    simp only [List.reverse_cons, List.reverse_nil, List.nil_append, List.singleton_append]
    rw [List.dropWhile_cons]
    simp [isJsonWs]

/-- Wrapping a text in a markdown fence block does not change the cleaned
text: the whole fence wrapper is stripped and the surrounding newlines are
trimmed. -/
theorem cleanResponseText_fenced (t : String) :
    cleanResponseText ("```json\n" ++ t ++ "\n```") = cleanResponseText t := by
  unfold cleanResponseText
  have hd : ("```json\n" ++ t ++ "\n```").data
      = fenceJson ++ '\n' :: (t.data ++ '\n' :: fencePlain) := by
    rw [String.data_append, String.data_append,
      show "```json\n".data = fenceJson ++ ['\n'] from rfl,
      show "\n```".data = '\n' :: fencePlain from rfl]
    simp
  rw [hd]
  rw [stripFencesList_append_newline fenceJson.length fenceJson (le_refl _)]
  rw [show stripFencesList fenceJson = [] from rfl, List.nil_append]
  rw [stripFencesList_append_newline t.data.length t.data (le_refl _)]
  rw [show stripFencesList fencePlain = [] from rfl]
  rw [trimList_cons_newline]
  rw [show stripFencesList t.data ++ '\n' :: ([] : List Char)
      = stripFencesList t.data ++ ['\n'] by simp]
  rw [trimList_append_newline]


/-! ### Helper lemmas for `splitOnComma` -/

theorem splitOnComma_ne_nil : ∀ cs : List Char, splitOnComma cs ≠ [] := by
  intro cs
  match cs with
  | [] => simp [splitOnComma]
  | c :: rest =>
    simp only [splitOnComma]
    by_cases h : c = ','
    · simp [h]
    · rw [if_neg h]
      rcases hs : splitOnComma rest with _ | ⟨g, gs⟩ <;> simp

theorem splitOnComma_head : ∀ cs : List Char,
    (splitOnComma cs)[0]? = some (cs.takeWhile (fun c => c != ',')) := by
  intro cs
  induction cs with
  | nil => rfl
  | cons c rest ih =>
    simp only [splitOnComma]
    by_cases h : c = ','
    · subst h
      simp [List.takeWhile_cons]
    · rw [if_neg h]
      rcases hs : splitOnComma rest with _ | ⟨g, gs⟩
      · exact absurd hs (splitOnComma_ne_nil rest)
      · rw [hs] at ih
        have e1 : ((c :: g) :: gs)[0]? = some (c :: g) := by simp
        have e2 : (g :: gs)[0]? = some g := by simp
        rw [e2] at ih
        rw [e1]
        simp only [List.takeWhile_cons]
        rw [if_pos (by simp [h])]
        exact congrArg (fun l => some (c :: l)) (Option.some.inj ih)

theorem splitOnComma_second : ∀ cs : List Char,
    (splitOnComma cs)[1]? =
      if cs.contains ',' then
        some (((cs.dropWhile (fun c => c != ',')).tail).takeWhile (fun c => c != ','))
      else none := by
  intro cs
  induction cs with
  | nil => rfl
  | cons c rest ih =>
    simp only [splitOnComma]
    by_cases h : c = ','
    · subst h
      rw [if_pos rfl]
      have e1 : (([] : List Char) :: splitOnComma rest)[1]? = (splitOnComma rest)[0]? := by
        simp
      rw [e1, splitOnComma_head rest]
      rw [if_pos (by simp [List.contains_cons])]
      simp [List.dropWhile_cons]
    · rw [if_neg h]
      rcases hs : splitOnComma rest with _ | ⟨g, gs⟩
      · exact absurd hs (splitOnComma_ne_nil rest)
      · rw [hs] at ih
        have e1 : ((c :: g) :: gs)[1]? = gs[0]? := by simp
        have e2 : (g :: gs)[1]? = gs[0]? := by simp
        rw [e2] at ih
        rw [e1, ih]
        have hc : (c :: rest).contains ',' = rest.contains ',' := by
          simp only [List.contains_cons]
          rw [show (',' == c) = false from beq_false_of_ne (fun he => h he.symm)]
          simp
        have hd : (c :: rest).dropWhile (fun x => x != ',') =
            rest.dropWhile (fun x => x != ',') := by
          rw [List.dropWhile_cons, if_pos (by simp [h])]
        rw [hc, hd]

/-- The code's extraction of the inline reference data agrees with the
amended description. -/
theorem refImageData_eq_spec (r : String) : refImageData r = refImageDataSpec r := by
  unfold refImageData refImageDataSpec
  rw [splitOnComma_second]
  by_cases h : r.data.contains ','
  · rw [if_pos h, if_pos h]
  · rw [if_neg h, if_neg h]

/-! ### Claims C1 and C6: the story parse-and-recover block -/

/-- Claim C1, counterexample: on unparseable text `generateComicStory`
returns the Portuguese degenerate title "História Sem Título", not
`"Untitled"`; an empty (or fence-wrapped) response does not yield the
degenerate object at all — `""` is replaced by `"\x7b\x7d"` and parses to
the empty object, and a fenced empty object parses after cleaning even
though the raw text is unparseable. -/
theorem generateStory_untitled_counterexample :
    storyResponseToJson (some "not json")
        ≠ Json.obj [("title", Json.str "Untitled"), ("panels", Json.arr [])]
      ∧ storyResponseToJson (some "not json") = untitledStory
      ∧ storyResponseToJson (some "") = Json.obj []
      ∧ storyResponseToJson (some "```json\n{}\n```") = Json.obj [] := by
  refine ⟨?_, rfl, rfl, rfl⟩
  intro h
  have h2 : untitledStory
      = Json.obj [("title", Json.str "Untitled"), ("panels", Json.arr [])] :=
    (rfl : storyResponseToJson (some "not json") = untitledStory).symm.trans h
  have h3 := congrArg
    (fun j => match j with
      | Json.obj (("title", Json.str t) :: _) => t
      | _ => "") h2
  exact absurd h3 (by decide)

/-- Claim C1 (amended): whenever the cleaned response text is unparseable
as JSON, `generateComicStory` returns the degenerate object
`\x7b title: "História Sem Título", panels: [] \x7d` instead of throwing,
and whenever it parses, the parsed value is returned (so an empty response,
replaced by `"\x7b\x7d"`, yields the empty object). -/
theorem generateStory_parse_failure (respText : Option String) :
    (parseJson (cleanResponseText (responseTextOrDefault respText)) = none →
      storyResponseToJson respText = untitledStory)
    ∧ (∀ j, parseJson (cleanResponseText (responseTextOrDefault respText)) = some j →
      storyResponseToJson respText = j) := by
  constructor
  · intro h
    unfold storyResponseToJson
    rw [h]
  · intro j h
    unfold storyResponseToJson
    rw [h]

theorem generateStory_parse_failure_witness :
    storyResponseToJson (some "garbage") = untitledStory :=
  (generateStory_parse_failure (some "garbage")).1 rfl

/-- Claim C6: for a well-formed JSON payload `t`, a response whose raw
text is `t` wrapped in a markdown code fence parses exactly as the
unwrapped `t` does. -/
theorem generateStory_fenced (t : String) (h : (parseJson t).isSome = true) :
    storyResponseToJson (some ("```json\n" ++ t ++ "\n```"))
      = storyResponseToJson (some t) := by
  have ht : t ≠ "" := by
    intro h0
    rw [h0] at h
    exact absurd h (by decide)
  have hw : ("```json\n" ++ t ++ "\n```") ≠ "" := by
    intro h0
    have hlen := congrArg String.length h0
    rw [String.length_append, String.length_append,
      show ("```json\n").length = 8 from rfl, show ("\n```").length = 4 from rfl,
      show ("" : String).length = 0 from rfl] at hlen
    omega
  unfold storyResponseToJson
  rw [show responseTextOrDefault (some ("```json\n" ++ t ++ "\n```"))
      = "```json\n" ++ t ++ "\n```" from by simp [responseTextOrDefault, hw],
    show responseTextOrDefault (some t) = t from by simp [responseTextOrDefault, ht],
    cleanResponseText_fenced]

theorem generateStory_fenced_witness :
    storyResponseToJson (some ("```json\n" ++ "{}" ++ "\n```"))
      = storyResponseToJson (some "{}") :=
  generateStory_fenced "{}" rfl

/-! ### Claim C7: scanning the image response -/

/-- Claim C7: `generatePanelImage` scans the response's content parts in
order and returns the first inline payload re-wrapped as a data URI; when
no part carries one it returns `none` rather than an error. -/
theorem generateImage_first_inline (r : GenResponse) :
    extractPanelImage r
        = ((responseParts r).findSome? (fun p => p.inlineData)).map
            (fun d => "data:image/png;base64," ++ d)
      ∧ ((∀ p ∈ responseParts r, p.inlineData = none) → extractPanelImage r = none) := by
  have hgen : ∀ l : List RespPart, firstInlineImage l
      = (l.findSome? (fun p => p.inlineData)).map
          (fun d => "data:image/png;base64," ++ d) := by
    intro l
    induction l with
    | nil => rfl
    | cons p rest ih =>
      cases hp : p.inlineData <;>
        simp [firstInlineImage, List.findSome?_cons, hp, ih]
  constructor
  · exact hgen _
  · intro hall
    rw [show extractPanelImage r = firstInlineImage (responseParts r) from rfl, hgen]
    rw [List.findSome?_eq_none_iff.mpr hall]
    rfl

theorem generateImage_first_inline_witness :
    extractPanelImage (GenResponse.mk (some [RespCandidate.mk (some (RespContent.mk
      (some [RespPart.mk none, RespPart.mk none])))])) = none :=
  (generateImage_first_inline _).2 (by decide)

/-! ### Claim C8: missing credential -/

/-- Claim C8: when `GEMINI_API_KEY` is absent (or empty, which is equally
falsy) in the environment, client construction fails and all three wrapper
functions return the `"GEMINI_API_KEY is not set"` error with an empty
request log — no external request is issued. -/
theorem missing_credential (env : String → Option String)
    (h : env "GEMINI_API_KEY" = none ∨ env "GEMINI_API_KEY" = some "")
    (prompt language : String) (respText : Option String) (description : String)
    (ref : Option String) (resp : GenResponse) (text targetLanguage : String)
    (respText2 : Option String) :
    generateComicStory env prompt language respText
        = ([], Except.error "GEMINI_API_KEY is not set")
      ∧ generatePanelImage env description ref resp
        = ([], Except.error "GEMINI_API_KEY is not set")
      ∧ translateText env text targetLanguage respText2
        = ([], Except.error "GEMINI_API_KEY is not set") := by
  have hai : getAI env = Except.error "GEMINI_API_KEY is not set" := by
    rcases h with h | h <;> simp [getAI, h]
  refine ⟨?_, ?_, ?_⟩ <;>
    simp [generateComicStory, generatePanelImage, translateText, hai]

theorem missing_credential_witness :
    generateComicStory (fun _ => none) "p" "pt-BR" none
      = ([], Except.error "GEMINI_API_KEY is not set") :=
  (missing_credential (fun _ => none) (Or.inl rfl) "p" "pt-BR" none "d" none
    (GenResponse.mk none) "t" "en" none).1

/-! ### Claim C10: the reference image argument -/

/-- Claim C10, counterexample: for an argument with two commas the code
sends the field between the first and second comma (`"b"`), not the whole
substring after the first comma (`"b,c"`). -/
theorem refImage_after_comma_counterexample :
    refImageData "a,b,c" = "b"
      ∧ afterFirstComma "a,b,c" = "b,c"
      ∧ ("b" : String) ≠ "b,c" :=
  ⟨rfl, rfl, by decide⟩

/-- Claim C10 (amended): with a reference argument supplied (non-empty),
the request parts are the instruction extended by the likeness request
followed by the inline data, where the data sent is the substring between
the first comma and the following comma or end of string — the whole
argument when there is no comma or that substring is empty; without a
reference only the base instruction is sent. -/
theorem generateImage_reference_parts (description r : String) (h : r ≠ "") :
    panelImageRequestParts description (some r)
        = [⟨some (basePrompt description ++ likenessSuffix), none⟩,
           ⟨none, some (refImageDataSpec r, "image/png")⟩]
      ∧ panelImageRequestParts description none
        = [⟨some (basePrompt description), none⟩] := by
  constructor
  · have e : panelImageRequestParts description (some r)
        = if r = "" then [⟨some (basePrompt description), none⟩]
          else [⟨some (basePrompt description ++ likenessSuffix), none⟩,
                ⟨none, some (refImageData r, "image/png")⟩] := rfl
    rw [e, if_neg h, refImageData_eq_spec]
  · rfl

theorem generateImage_reference_parts_witness :
    panelImageRequestParts "d" (some "data:image/png;base64,AAA")
      = [⟨some (basePrompt "d" ++ likenessSuffix), none⟩,
         ⟨none, some ("AAA", "image/png")⟩] := by
  rw [(generateImage_reference_parts "d" "data:image/png;base64,AAA" (by decide)).1]
  rfl


/-! ### Claim C4: `GET /api/comics/:id` -/

/-- Claim C4: for every id, the route returns a matching stored comic
together with a permutation of all its panels sorted ascending by
`order_index` when one exists, and fails with the 404 error
`"Comic not found"` exactly when no comic matches. -/
theorem getComic_spec (db : DB) (id : String) :
    match getComicRoute db id with
    | Except.error e => e = "Comic not found" ∧ ∀ c ∈ db.comics, c.id ≠ id
    | Except.ok (c, pl) =>
        c ∈ db.comics ∧ c.id = id
          ∧ pl.Perm (db.panels.filter (fun p => p.comic_id == id))
          ∧ pl.Pairwise panelOrder := by
  unfold getComicRoute
  cases hf : db.comics.find? (fun c => c.id == id) with
  | none =>
    refine ⟨rfl, fun c hc => ?_⟩
    have := List.find?_eq_none.mp hf c hc
    simpa using this
  | some c =>
    refine ⟨List.mem_of_find?_eq_some hf, by simpa using List.find?_some hf, ?_, ?_⟩
    · exact List.perm_insertionSort panelOrder _
    · exact List.sorted_insertionSort panelOrder _

theorem getComic_spec_witness :
    (⟨"c1", "T", some "D", 0⟩ : ComicRow) ∈ sampleDb.comics
      ∧ (⟨"c1", "T", some "D", 0⟩ : ComicRow).id = "c1"
      ∧ ((sampleDb.panels.filter (fun p => p.comic_id == "c1")).insertionSort
          panelOrder).Perm (sampleDb.panels.filter (fun p => p.comic_id == "c1"))
      ∧ ((sampleDb.panels.filter (fun p => p.comic_id == "c1")).insertionSort
          panelOrder).Pairwise panelOrder :=
  getComic_spec sampleDb "c1"

/-! ### Claim C5: `DELETE /api/comics/:id` -/

/-- Claim C5: deleting a comic removes all its panels and the comic, so a
subsequent `GET` 404s; the route always responds `success: true`, and
repeating the delete on the now-missing id leaves the store unchanged and
still responds `success: true`. -/
theorem deleteComic_spec (db : DB) (id : String) :
    (deleteComicRoute db id).2 = true
      ∧ (∀ p ∈ (deleteComicRoute db id).1.panels, p.comic_id ≠ id)
      ∧ (∀ c ∈ (deleteComicRoute db id).1.comics, c.id ≠ id)
      ∧ getComicRoute (deleteComicRoute db id).1 id = Except.error "Comic not found"
      ∧ deleteComicRoute (deleteComicRoute db id).1 id = ((deleteComicRoute db id).1, true) := by
  refine ⟨rfl, ?_, ?_, ?_, ?_⟩
  · intro p hp
    have := (List.mem_filter.mp hp).2
    simpa using this
  · intro c hc
    have := (List.mem_filter.mp hc).2
    simpa using this
  · unfold getComicRoute
    have hnone : ((deleteComicRoute db id).1.comics).find? (fun c => c.id == id) = none :=
      List.find?_eq_none.mpr (fun c hc => by
        have := (List.mem_filter.mp hc).2
        simpa using this)
    rw [hnone]
  · unfold deleteComicRoute deleteComicDb
    simp [List.filter_filter]

theorem deleteComic_spec_witness :
    getComicRoute (deleteComicRoute sampleDb "c1").1 "c1" = Except.error "Comic not found" :=
  (deleteComic_spec sampleDb "c1").2.2.2.1


/-! ### Claim C3: abort before creating a comic record -/

/-- Claim C3: in the creation workflow, when story generation yields zero
panels (an absent/null `panels` field or an empty list), the run throws
`"Falha ao gerar história"` before issuing any API call: no
`POST /api/comics` and no panel write happen in that run. -/
theorem createComic_aborts_on_empty_story (prompt storyTitle : String)
    (storyPanels : Option (List StoryPanel)) (imageFor : Nat → Option String)
    (newComicId : String) (hp : prompt ≠ "")
    (h : storyPanels = none ∨ storyPanels = some []) :
    handleCreateComic prompt storyTitle storyPanels imageFor newComicId
      = ([], some "Falha ao gerar história") := by
  unfold handleCreateComic
  rw [if_neg hp]
  rcases h with h | h <;> subst h <;> simp

theorem createComic_aborts_on_empty_story_witness :
    handleCreateComic "p" "T" (some []) (fun _ => none) "c1"
      = ([], some "Falha ao gerar história") :=
  createComic_aborts_on_empty_story "p" "T" (some []) (fun _ => none) "c1"
    (by decide) (Or.inr rfl)

/-! ### Claim C9: skipped panels and gapped, increasing order indices -/

/-- Claim C9: in a successful run, a story position whose image came back
absent (or empty, equally falsy) is silently skipped — no panel write
carries its index — while every position with an image is written with
`order_index` equal to its story position and its own caption; the written
`order_index` sequence is strictly increasing (so gaps are possible). -/
theorem createComic_skips_absent_images (prompt storyTitle : String)
    (ps : List StoryPanel) (imageFor : Nat → Option String) (newComicId : String)
    (hp : prompt ≠ "") (hne : ps ≠ []) :
    (∀ i, i < ps.length → (imageFor i = none ∨ imageFor i = some "") →
        ∀ call ∈ (handleCreateComic prompt storyTitle (some ps) imageFor newComicId).1,
          panelCallOrderIndex call ≠ some i)
      ∧ (∀ i (hi : i < ps.length) url, imageFor i = some url → url ≠ "" →
          ApiCall.postPanel newComicId url (ps.get ⟨i, hi⟩).caption i ∈
            (handleCreateComic prompt storyTitle (some ps) imageFor newComicId).1)
      ∧ (panelOrderIndices
          (handleCreateComic prompt storyTitle (some ps) imageFor newComicId).1).Pairwise
            (· < ·) := by
  have hlen : ps.length ≠ 0 := fun h => hne (List.eq_nil_of_length_eq_zero h)
  have hred : (handleCreateComic prompt storyTitle (some ps) imageFor newComicId)
      = (ApiCall.postComic storyTitle prompt ::
          (List.range ps.length).filterMap (fun i =>
            match imageFor i with
            | none => none
            | some url =>
              if url = "" then none
              else some (ApiCall.postPanel newComicId url
                (ps.getD i defaultStoryPanel).caption i)),
         none) := by
    unfold handleCreateComic
    rw [if_neg hp]
    dsimp only
    rw [if_neg hlen]
  rw [hred]
  refine ⟨?_, ?_, ?_⟩
  · intro i hi him call hcall hidx
    rcases List.mem_cons.mp hcall with heq | hcall2
    · subst heq
      exact absurd hidx (by simp [panelCallOrderIndex])
    · obtain ⟨j, hj, hfj⟩ := List.mem_filterMap.mp hcall2
      rcases hfa : imageFor j with _ | url
      · simp only [hfa] at hfj
        exact Option.noConfusion hfj
      · simp only [hfa] at hfj
        by_cases hu : url = ""
        · rw [if_pos hu] at hfj
          exact Option.noConfusion hfj
        · rw [if_neg hu] at hfj
          have hcall2 := Option.some.inj hfj
          rw [← hcall2] at hidx
          have hji : j = i := by simpa [panelCallOrderIndex] using hidx
          subst hji
          rcases him with him | him
          · rw [him] at hfa
            exact Option.noConfusion hfa
          · rw [him] at hfa
            exact hu (Option.some.inj hfa).symm
  · intro i hi url hurl hune
    refine List.mem_cons_of_mem _ (List.mem_filterMap.mpr ⟨i, List.mem_range.mpr hi, ?_⟩)
    rw [hurl]
    dsimp only
    rw [if_neg hune]
    have hg : ps.getD i defaultStoryPanel = ps.get ⟨i, hi⟩ := by
      simp [List.getD_eq_getElem?_getD, List.getElem?_eq_getElem hi]
    rw [hg]
  · unfold panelOrderIndices
    rw [List.filterMap_cons]
    dsimp only [panelCallOrderIndex]
    rw [List.filterMap_filterMap]
    refine List.Pairwise.filterMap _ ?_ (List.pairwise_lt_range _)
    intro a b hab x hx y hy
    have hxa : x = a := by
      rcases hfa : imageFor a with _ | url
      · simp [hfa] at hx
      · by_cases hu : url = ""
        · simp [hfa, hu] at hx
        · simp [hfa, hu, panelCallOrderIndex] at hx
          omega
    have hyb : y = b := by
      rcases hfb : imageFor b with _ | url
      · simp [hfb] at hy
      · by_cases hu : url = ""
        · simp [hfb, hu] at hy
        · simp [hfb, hu, panelCallOrderIndex] at hy
          omega
    omega

theorem createComic_skips_absent_images_witness :
    ApiCall.postPanel "c9" "img" "k1" 1 ∈
      (handleCreateComic "p" "T" (some [⟨"d0", "k0"⟩, ⟨"d1", "k1"⟩])
        (fun i => if i = 0 then none else some "img") "c9").1 :=
  (createComic_skips_absent_images "p" "T" [⟨"d0", "k0"⟩, ⟨"d1", "k1"⟩]
    (fun i => if i = 0 then none else some "img") "c9" (by decide) (by decide)).2.1
    1 (by decide) "img" rfl (by decide)


/-! ### Claim C2: uniqueness of `order_index` -/

/-- Claim C2, counterexample: the schema and the panel endpoint enforce
nothing about `order_index`, so the store state reached by one
`POST /api/comics` followed by two panel posts with `order_index` `0` is
reachable and violates the uniqueness invariant. -/
theorem orderUnique_counterexample :
    Reachable dupOrderDb ∧ ¬ orderUnique dupOrderDb := by
  constructor
  · exact Reachable.postPanel "p2" "c1" (some "img2") (some "cap2") (some 0)
      (Reachable.postPanel "p1" "c1" (some "img1") (some "cap1") (some 0)
        (Reachable.postComic "c1" "T" (some "D") 0 Reachable.init (by decide))
        (by decide))
      (by decide)
  · intro h
    have h1 := h "c1"
    revert h1
    decide

/-- The `order_index` column values (per target comic) after replaying a
call list: the pre-existing ones followed by one value per matching panel
write. -/
theorem applyApiCalls_panel_orders (ids : Nat → String) (ts : Nat) (cid : String) :
    ∀ (calls : List ApiCall) (db : DB) (k : Nat),
      ((applyApiCalls ids ts db k calls).panels.filter
          (fun p => p.comic_id == cid)).map (fun p => p.order_index)
        = (db.panels.filter (fun p => p.comic_id == cid)).map (fun p => p.order_index)
          ++ calls.filterMap (fun c =>
              match c with
              | ApiCall.postComic _ _ => none
              | ApiCall.postPanel c' _ _ i =>
                if c' == cid then some (some (i : Int)) else none) := by
  intro calls
  induction calls with
  | nil =>
    intro db k
    simp [applyApiCalls]
  | cons c rest ih =>
    intro db k
    cases c with
    | postComic t d =>
      show ((applyApiCalls ids ts (createComicDb db (ids k) t (some d) ts) (k + 1)
          rest).panels.filter _).map _ = _
      rw [ih]
      simp [createComicDb, List.filterMap_cons]
    | postPanel c' url cap i =>
      show ((applyApiCalls ids ts (addPanelDb db (ids k) c' (some url) (some cap)
          (some (i : Int))) (k + 1) rest).panels.filter _).map _ = _
      rw [ih]
      by_cases hc : c' = cid <;>
        simp [addPanelDb, List.filter_append, List.filterMap_cons, hc]

/-- Claim C2 (amended): neither the schema nor the panel endpoint enforces
the uniqueness invariant — `orderUnique_counterexample` reaches a
duplicate through the API — but the panel writes of one comic-creation
workflow run carry pairwise-distinct `order_index`, so replaying a run
against a store holding no panels for the new comic leaves that comic's
panels unique in `order_index`. -/
theorem orderUnique_workflow (db : DB) (prompt storyTitle : String)
    (ps : List StoryPanel) (imageFor : Nat → Option String) (newComicId : String)
    (ids : Nat → String) (ts : Nat)
    (hfresh : ∀ p ∈ db.panels, p.comic_id ≠ newComicId) :
    (((applyApiCalls ids ts db 0
        (handleCreateComic prompt storyTitle (some ps) imageFor newComicId).1).panels.filter
          (fun p => p.comic_id == newComicId)).map (fun p => p.order_index)).Pairwise
      (· ≠ ·) := by
  rw [applyApiCalls_panel_orders]
  have hdbnil : db.panels.filter (fun p => p.comic_id == newComicId) = [] :=
    List.filter_eq_nil_iff.mpr (fun p hp => by simp [hfresh p hp])
  rw [hdbnil]
  rw [List.map_nil, List.nil_append]
  unfold handleCreateComic
  by_cases hp : prompt = ""
  · simp [hp]
  · rw [if_neg hp]
    dsimp only
    by_cases hl : ps.length = 0
    · simp [hl]
    · rw [if_neg hl]
      dsimp only
      rw [List.filterMap_cons]
      dsimp only
      rw [List.filterMap_filterMap]
      refine List.Pairwise.filterMap _ ?_ (List.pairwise_lt_range _)
      intro a b hab x hx y hy
      have hxa : x = some (a : Int) := by
        rcases hfa : imageFor a with _ | url
        · simp [hfa] at hx
        · by_cases hu : url = ""
          · simp [hfa, hu] at hx
          · simp [hfa, hu] at hx
            first | exact hx | exact hx.symm
      have hyb : y = some (b : Int) := by
        rcases hfb : imageFor b with _ | url
        · simp [hfb] at hy
        · by_cases hu : url = ""
          · simp [hfb, hu] at hy
          · simp [hfb, hu] at hy
            first | exact hy | exact hy.symm
      subst hxa hyb
      simp
      omega

theorem orderUnique_workflow_witness :
    (((applyApiCalls (fun _ => "x") 0 emptyDB 0
        (handleCreateComic "p" "T" (some [⟨"d", "k"⟩])
          (fun _ => some "i") "nc").1).panels.filter
          (fun p => p.comic_id == "nc")).map (fun p => p.order_index)).Pairwise
      (· ≠ ·) :=
  orderUnique_workflow emptyDB "p" "T" [⟨"d", "k"⟩] (fun _ => some "i") "nc"
    (fun _ => "x") 0 (by simp [emptyDB])

end MinhaHQ
